import Mathlib

/-!
Verification of the fragment-catalog / query-planner / compactor engine of the
HSV dashboard repository.  The Python sources embedded here are
`utils/run_gex_data_loader.py`, `utils/run_pert_data_loader.py`,
`utils/extra_auto_pert_parquet_merger.py`, `utils/helper.py` and
`utils/gene_utils.py`.  Schemas are sets of column names, modelled as lists
with membership semantics; Python dicts are association lists where a fresh
binding is prepended, so `List.lookup` (first match) gives dict-overwrite
semantics; Python set iteration order is fixed to insertion order via
`List.dedup` where the code iterates over a set.
-/

namespace HSV

/-- A parquet schema: the set of column names, as a list. -/
abbrev Schema := List String

/-- The `col_to_table_map` dict of both loaders: column name to table alias.
Lookup takes the first matching binding. -/
abbrev CMap := List (String × String)

/-- Python `for col in cols: map[col] = a` on a dict: prepend one binding per
column, so a later `mapSet` shadows earlier bindings for the same key. -/
def mapSet (m : CMap) (cols : List String) (a : String) : CMap :=
  cols.map (fun c => (c, a)) ++ m

/-- The DuckDB table alias given to extension file number `i`: the letter
t followed by the decimal index, as built in both loaders and the merger. -/
def aliasOf (i : Nat) : String := "t" ++ toString i

/-! ## GEX loader, `utils/run_gex_data_loader.py` -/

/-- The `required_cols` set of `load_filtered_gex_data` (line 158). -/
def gexRequiredCols : Schema :=
  ["Barcode", "UMAP_1", "UMAP_2", "CellType_Level3", "Subject", "Status"]

/-- The extension-file loop of `load_filtered_gex_data` (lines 123-154).
Each list element is the outcome of the DESCRIBE of that file: `.error`
is a schema-read failure, caught by the `except` and skipped.  Carries
`all_seen_cols` (`seen`) and `col_to_table_map` (`m`); returns the final
seen set, the final map, and the list of joined file indices. -/
def gexJoinLoop (i : Nat) (exts : List (Except String Schema)) (seen : Schema)
    (m : CMap) : Schema × CMap × List Nat :=
  match exts with
  | [] => (seen, m, [])
  | .error _ :: rest => gexJoinLoop (i + 1) rest seen m
  | .ok e :: rest =>
    let newCols := e.filter (fun c => decide (c ∉ seen))
    if "Barcode" ∈ e then
      if newCols = [] then gexJoinLoop (i + 1) rest seen m
      else
        let r := gexJoinLoop (i + 1) rest (seen ++ newCols) (mapSet m newCols (aliasOf i))
        (r.1, r.2.1, i :: r.2.2)
    else gexJoinLoop (i + 1) rest seen m

/-- The in-memory query plan built by `load_filtered_gex_data`: the final
`col_to_table_map`, the joined extension indices, `cols_to_select`, the
`final_select_list` as (alias, column) pairs, and the `missing_cols`
warning set (printed, not returned). -/
structure GexPlan where
  colMap : CMap
  joins : List Nat
  selCols : List String
  selList : List (String × String)
  missing : List String

/-- Plan construction of `load_filtered_gex_data` (lines 112-182) given the
core schema, the per-extension schema read outcomes, and the `genes`
argument (`none` models Python `None`; `some []` is falsy like `None`). -/
def load_filtered_gex_plan (coreCols : Schema) (exts : List (Except String Schema))
    (genes : Option (List String)) : GexPlan :=
  let initMap : CMap := mapSet [] coreCols "core"
  let r := gexJoinLoop 0 exts coreCols initMap
  let allSeen := r.1
  let m := r.2.1
  let geneList := genes.getD []
  let colsToSel : List String :=
    if geneList = [] then (gexRequiredCols ++ allSeen).dedup
    else (gexRequiredCols ++ geneList).dedup
  let sel := colsToSel.filterMap (fun c => (m.lookup c).map (fun a => (a, c)))
  let miss := colsToSel.filter (fun c => (m.lookup c).isNone && decide (c ∈ geneList))
  ⟨m, r.2.2, colsToSel, sel, miss⟩

/-- The value a loader returns to its caller: `df = none` models the empty
`pd.DataFrame()` degraded result, `df = some sel` a materialized table with
select list `sel`; `colorMap` is passed through.  Note there is no error
field: the Python functions never re-raise. -/
structure LoaderRet (γ : Type) where
  df : Option (List (String × String))
  colorMap : γ
deriving DecidableEq

/-- Top level of `load_filtered_gex_data`: the DESCRIBE of the core file is
`coreRead`; on failure the `except` at lines 107-110 returns
`(pd.DataFrame(), color_map)` and the error string is only printed.  The
second component is the set of warning lines printed to stdout (line 182),
which is not part of the returned value. -/
def load_filtered_gex_data {γ : Type} (coreRead : Except String Schema)
    (exts : List (Except String Schema)) (genes : Option (List String))
    (color : γ) : LoaderRet γ × List String :=
  match coreRead with
  | .error _ => (⟨none, color⟩, [])
  | .ok coreCols =>
    let p := load_filtered_gex_plan coreCols exts genes
    (⟨some p.selList, color⟩, p.missing)

/-! ## Pert loader, `utils/run_pert_data_loader.py` -/

/-- The `KEY_COLS` constant of `run_pert_data_loader.py` (line 21). -/
def KEY_COLS : Schema := ["Subject", "CellType_Level3", "Status"]

/-- The extension-file loop of `load_filtered_pert_data` (lines 146-190).
Unlike the GEX loop there is no `all_seen_cols`: `potential_new_cols`
subtracts only the core schema and the key columns, so a column shared by
two extension files is re-registered (dict overwrite) by the later file. -/
def pertJoinLoop (coreCols : Schema) (geneList : List String) (i : Nat)
    (exts : List (Except String Schema)) (m : CMap) : CMap × List Nat :=
  match exts with
  | [] => (m, [])
  | .error _ :: rest => pertJoinLoop coreCols geneList (i + 1) rest m
  | .ok e :: rest =>
    if KEY_COLS ⊆ e then
      let potentialNewCols := e.filter (fun c => decide (c ∉ coreCols) && decide (c ∉ KEY_COLS))
      let colsToJoin :=
        if geneList = [] then potentialNewCols
        else potentialNewCols.filter (fun c => decide (c ∈ geneList))
      if colsToJoin = [] then pertJoinLoop coreCols geneList (i + 1) rest m
      else
        let r := pertJoinLoop coreCols geneList (i + 1) rest (mapSet m colsToJoin (aliasOf i))
        (r.1, i :: r.2)
    else pertJoinLoop coreCols geneList (i + 1) rest m

/-- The in-memory query plan built by `load_filtered_pert_data`. -/
structure PertPlan where
  colMap : CMap
  joins : List Nat
  selCols : List String
  selList : List (String × String)
  missing : List String

/-- Plan construction of `load_filtered_pert_data` (lines 133-216), defined
when the core schema contains the key columns (otherwise line 126 raises
and the caller path returns the degraded result instead). -/
def load_filtered_pert_plan (coreCols : Schema) (exts : List (Except String Schema))
    (genes : Option (List String)) : Option PertPlan :=
  if KEY_COLS ⊆ coreCols then
    let initMap : CMap := mapSet [] coreCols "core"
    let geneList := genes.getD []
    let r := pertJoinLoop coreCols geneList 0 exts initMap
    let m := r.1
    let colsToSel : List String :=
      if geneList = [] then (KEY_COLS ++ m.map Prod.fst).dedup
      else (KEY_COLS ++ geneList).dedup
    let sel := colsToSel.filterMap (fun c => (m.lookup c).map (fun a => (a, c)))
    let miss := colsToSel.filter (fun c => (m.lookup c).isNone && decide (c ∈ geneList))
    some ⟨m, r.2, colsToSel, sel, miss⟩
  else none

/-- Top level of `load_filtered_pert_data`: a core DESCRIBE failure or the
missing-key `ValueError` of line 126 is caught at lines 128-131 and the
function returns `(pd.DataFrame(), color_map)`; the error is only printed. -/
def load_filtered_pert_data {γ : Type} (coreRead : Except String Schema)
    (exts : List (Except String Schema)) (genes : Option (List String))
    (color : γ) : LoaderRet γ × List String :=
  match coreRead with
  | .error _ => (⟨none, color⟩, [])
  | .ok coreCols =>
    match load_filtered_pert_plan coreCols exts genes with
    | none => (⟨none, color⟩, [])
    | some p => (⟨some p.selList, color⟩, p.missing)

/-! ## Fragment discovery (local glob and S3 listing) -/

/-- Glob matching for patterns of shape `pre*suf` where `*` matches any
(possibly empty) character sequence: `f` matches iff it starts with `pre`,
ends with `suf`, and is long enough that the two do not overlap. -/
def globMatch (pre suf f : String) : Bool :=
  pre.data.isPrefixOf f.data && suf.data.isSuffixOf f.data &&
    decide (pre.data.length + suf.data.length ≤ f.data.length)

/-- Local GEX core file name, `run_gex_data_loader.py` line 38. -/
def gex_local_core_name (ds : String) : String := ds ++ "_gex_core.parquet"

/-- Local GEX extension discovery, `run_gex_data_loader.py` lines 53-55:
`glob.glob` on the pattern `ds_gex_*.parquet` then drop the core path.
Files are given by base name; the directory component is elided. -/
def gex_local_ext_files (ds : String) (files : List String) : List String :=
  (files.filter (fun f => globMatch (ds ++ "_gex_") ".parquet" f)).filter
    (fun f => decide (f ≠ gex_local_core_name ds))

/-- Local core file name used by `load_filtered_pert_data`,
`run_pert_data_loader.py` line 54: the file looked up inside the Pert
directory is named with the `_gex_core` suffix, not `_pert_core`. -/
def pert_local_core_name (ds : String) : String := ds ++ "_gex_core.parquet"

/-- Local Pert extension discovery, `run_pert_data_loader.py` lines 69-71. -/
def pert_local_ext_files (ds : String) (files : List String) : List String :=
  (files.filter (fun f => globMatch (ds ++ "_pert_") ".parquet" f)).filter
    (fun f => decide (f ≠ pert_local_core_name ds))

/-- The S3 directory part of GEX object keys, `run_gex_data_loader.py`
line 34 plus the trailing slash of line 77. -/
def s3_gex_dir : String := "Joe/HSV_Dashboard_py/DataWarehouse/GEX/"

/-- The S3 directory part of Pert object keys, `run_pert_data_loader.py`
line 50 plus the trailing slash of line 93. -/
def s3_pert_dir : String := "Joe/HSV_Dashboard_py/DataWarehouse/Pert/"

/-- An S3 `list_objects_v2` call: returns the keys of the bucket that start
with the given literal `Prefix` argument (the S3 API performs no glob
expansion; `*` in the argument is an ordinary character). -/
def s3_list_objects (keys : List String) (p : String) : List String :=
  keys.filter (fun k => p.data.isPrefixOf k.data)

/-- S3 GEX extension discovery, `run_gex_data_loader.py` lines 76-82: list
with `Prefix = dir/ds_gex_*.parquet` (literal `*`), keep keys starting with
that same literal string, drop the core key. -/
def s3_gex_ext_files (ds : String) (keys : List String) : List String :=
  let listPat := s3_gex_dir ++ ds ++ "_gex_*.parquet"
  let allFiles := (s3_list_objects keys listPat).filter (fun k => listPat.data.isPrefixOf k.data)
  let coreKey := s3_gex_dir ++ ds ++ "_gex_core.parquet"
  allFiles.filter (fun k => decide (k ≠ coreKey))

/-- S3 Pert extension discovery, `run_pert_data_loader.py` lines 92-98,
same shape as the GEX one with the literal `*` in the `Prefix`. -/
def s3_pert_ext_files (ds : String) (keys : List String) : List String :=
  let listPat := s3_pert_dir ++ ds ++ "_pert_*.parquet"
  let allFiles := (s3_list_objects keys listPat).filter (fun k => listPat.data.isPrefixOf k.data)
  let coreKey := s3_pert_dir ++ ds ++ "_pert_core.parquet"
  allFiles.filter (fun k => decide (k ≠ coreKey))

/-- Reference definition following the words of the spec (section 6, file
naming convention), for comparison with the discovery functions above:
per dataset and domain, the extension fragments are exactly the names
matching `ds_domain_*.parquet` under the given directory, excluding the
core name `ds_domain_core.parquet`. -/
def spec_ext_fragments (dir ds dom : String) (keys : List String) : List String :=
  (keys.filter (fun k => globMatch (dir ++ ds ++ "_" ++ dom ++ "_") ".parquet" k)).filter
    (fun k => decide (k ≠ dir ++ ds ++ "_" ++ dom ++ "_core.parquet"))

/-! ## Compactor, `utils/extra_auto_pert_parquet_merger.py` -/

/-- An extension fragment on disk: file name and schema. -/
structure Frag where
  name : String
  schema : Schema
deriving DecidableEq

/-- The `JOIN_KEYS` constant of the merger (line 24). -/
def JOIN_KEYS : Schema := ["Subject", "CellType_Level3", "Status"]

/-- The `new_cols` computation of the merger, lines 78-81: columns of the
extension schema neither in the core schema nor among the join keys. -/
def merger_new_cols (coreCols : Schema) (e : Schema) : List String :=
  e.filter (fun c => decide (c ∉ coreCols) && decide (c ∉ JOIN_KEYS))

/-- The inspection loop of the merger, lines 67-104: returns
`files_merged_successfully` (fragments holding all join keys, whether or
not they add columns) and the concatenated `new_cols` of all of them
(which drives `all_new_cols_sql`). -/
def merger_scan (coreCols : Schema) : List Frag → List Frag × List String
  | [] => ([], [])
  | f :: rest =>
    let r := merger_scan coreCols rest
    if JOIN_KEYS ⊆ f.schema then (f :: r.1, merger_new_cols coreCols f.schema ++ r.2)
    else r

/-- A point at which a run of the merger can raise, before the atomic
replace of line 138: the `DESCRIBE core` of line 58, the `COPY` query of
line 133, or the `con.close()` of line 134. -/
inductive FailSite
  | describeCore
  | copyQuery
  | closeConn
deriving DecidableEq

/-- Observable outcome of one merger run: the core schema afterwards, the
extension files still on disk, whether the `.tmp` file remains, whether
the atomic replace happened, and whether the run raised. -/
structure MergeResult where
  core : Option Schema
  exts : List Frag
  tmpRemains : Bool
  replaced : Bool
  failed : Bool
deriving DecidableEq

/-- One run of `merge_pert_files_duckdb` (lines 26-155) with an optional
injected failure.  No core file: return (lines 35-37).  No extension
files: return (lines 46-48).  A failure raises into the handler of lines
149-155, which removes the temp file when it exists and touches nothing
else.  When every inspected fragment adds no new column, lines 106-117
delete the inspected fragments and return without any replace.  Otherwise
the widened table is written to a temp file and `os.replace` installs it
(line 138), after which the merged fragments are deleted (lines 141-147). -/
def merge_pert_files_duckdb (core : Option Schema) (exts : List Frag)
    (fail : Option FailSite) : MergeResult :=
  match core with
  | none => ⟨none, exts, false, false, false⟩
  | some coreCols =>
    if exts = [] then ⟨some coreCols, exts, false, false, false⟩
    else if fail = some .describeCore then ⟨some coreCols, exts, false, false, true⟩
    else
      let r := merger_scan coreCols exts
      if r.2 = [] then
        ⟨some coreCols, exts.filter (fun f => decide (f ∉ r.1)), false, false, false⟩
      else if fail = some .copyQuery then ⟨some coreCols, exts, false, false, true⟩
      else if fail = some .closeConn then ⟨some coreCols, exts, false, false, true⟩
      else
        ⟨some (coreCols ++ r.2), exts.filter (fun f => decide (f ∉ r.1)), false, true, false⟩

/-! ## Caches and the refresh flag, `utils/helper.py` and `utils/gene_utils.py` -/

/-- The storage domain a request is about. -/
inductive Domain
  | gex
  | pert
  | umap
deriving DecidableEq

/-- The index used into `OPTIONS_CACHE` for a request about dataset `ds` in
domain `d`: `helper.py` lines 14 and 48 index by `dataset_prefix` alone,
so the domain is discarded. -/
def options_cache_key (ds : String) (_d : Domain) : String := ds

/-- The index used into `GENE_LIST_CACHE`: `gene_utils.py` lines 68 and 102
index by `dataset_prefix` alone. -/
def gene_list_cache_key (ds : String) (_d : Domain) : String := ds

/-- The index used into `GENE_REFRESH_FLAGS`: `gene_utils.py` lines 20 and
28 index by `dataset_prefix` alone. -/
def refresh_flag_key (ds : String) (_d : Domain) : String := ds

/-- A store into one of the prefix-indexed cache dicts on behalf of a
request in domain `d1` (dict assignment: prepend a binding). -/
def cache_store {β : Type} (cache : List (String × β)) (ds : String) (d1 : Domain)
    (v : β) : List (String × β) :=
  (options_cache_key ds d1, v) :: cache

/-- A lookup in the same cache dict on behalf of a request in domain `d2`. -/
def cache_lookup {β : Type} (cache : List (String × β)) (ds : String) (d2 : Domain) :
    Option β :=
  cache.lookup (options_cache_key ds d2)

/-- One `GENE_REFRESH_FLAGS` entry, `gene_utils.py` lines 20-23. -/
structure FlagEntry where
  status : String
  timestamp : Nat
deriving DecidableEq

/-- The `GENE_REFRESH_FLAGS` dict: dataset prefix to flag entry. -/
abbrev FlagTable := List (String × FlagEntry)

/-- `set_refresh_flag` of `gene_utils.py` lines 18-24: assign a fresh entry
carrying the status and the current time under the dataset prefix. -/
def set_refresh_flag (flags : FlagTable) (ds : String) (status : String)
    (now : Nat) : FlagTable :=
  (ds, ⟨status, now⟩) :: flags

/-- `get_refresh_flag` of `gene_utils.py` lines 26-28:
`GENE_REFRESH_FLAGS.get(ds, dict()).get(status-field, idle)`. -/
def get_refresh_flag (flags : FlagTable) (ds : String) : String :=
  ((flags.lookup ds).map FlagEntry.status).getD "idle"

/-! ## Derived ownership notions used to state the theorems -/

/-- Index of the first extension fragment that would register column `c` in
the GEX loop: the first readable schema containing both `Barcode` and `c`. -/
def gexFirstOwner (c : String) : List (Except String Schema) → Option Nat
  | [] => none
  | .error _ :: rest => (gexFirstOwner c rest).map (· + 1)
  | .ok e :: rest =>
    if "Barcode" ∈ e ∧ c ∈ e then some 0 else (gexFirstOwner c rest).map (· + 1)

/-- Index of the last extension fragment that would register column `c` in
the Pert loop: the last readable schema containing all key columns and `c`. -/
def pertLastOwner (c : String) : List (Except String Schema) → Option Nat
  | [] => none
  | .error _ :: rest => (pertLastOwner c rest).map (· + 1)
  | .ok e :: rest =>
    match pertLastOwner c rest with
    | some k => some (k + 1)
    | none => if KEY_COLS ⊆ e ∧ c ∈ e then some 0 else none

/-! ## Helper lemmas -/

/-- Lookup after a bulk dict assignment: a column in `cols` now maps to `a`,
any other column keeps its previous binding. -/
theorem lookup_mapSet (m : CMap) (cols : List String) (a c : String) :
    (mapSet m cols a).lookup c = if c ∈ cols then some a else m.lookup c := by
  induction cols with
  | nil => simp [mapSet]
  | cons x xs ih =>
    by_cases hx : x = c
    · subst hx
      simp [mapSet, List.lookup_cons]
    · have hbeq : (c == x) = false := beq_false_of_ne (Ne.symm hx)
      simp only [mapSet, List.map_cons, List.cons_append, List.lookup_cons, hbeq]
      rw [show (xs.map (fun c => (c, a)) ++ m) = mapSet m xs a from rfl, ih]
      simp [List.mem_cons, Ne.symm hx]

/-- Lookup in the initial core map. -/
theorem lookup_initMap (coreCols : Schema) (c : String) :
    ((mapSet [] coreCols "core") : CMap).lookup c =
      if c ∈ coreCols then some "core" else none := by
  rw [lookup_mapSet]
  rfl

/-- Columns already in `seen` keep their binding through the GEX loop:
`new_cols` excludes everything in `all_seen_cols`, so the loop never
re-registers such a column. -/
theorem gexJoinLoop_lookup_of_mem_seen (exts : List (Except String Schema)) :
    ∀ (i : Nat) (seen : Schema) (m : CMap) (c : String), c ∈ seen →
      ((gexJoinLoop i exts seen m).2.1).lookup c = m.lookup c := by
  induction exts with
  | nil => intro i seen m c _; rfl
  | cons x rest ih =>
    intro i seen m c hc
    match x with
    | .error s => exact ih (i + 1) seen m c hc
    | .ok e =>
      simp only [gexJoinLoop]
      by_cases hb : "Barcode" ∈ e
      · simp only [if_pos hb]
        by_cases hn : e.filter (fun c => decide (c ∉ seen)) = []
        · simp only [if_pos hn]
          exact ih (i + 1) seen m c hc
        · simp only [if_neg hn]
          have hmem : c ∈ seen ++ e.filter (fun c => decide (c ∉ seen)) :=
            List.mem_append_left _ hc
          have := ih (i + 1) (seen ++ e.filter (fun c => decide (c ∉ seen)))
            (mapSet m (e.filter (fun c => decide (c ∉ seen))) (aliasOf i)) c hmem
          rw [this, lookup_mapSet]
          have hcf : c ∉ e.filter (fun c => decide (c ∉ seen)) := by
            intro hmemf
            rcases List.mem_filter.mp hmemf with ⟨_, hdec⟩
            exact (of_decide_eq_true hdec) hc
          rw [if_neg hcf]
      · simp only [if_neg hb]
        exact ih (i + 1) seen m c hc

/-- Core columns keep their binding through the Pert loop:
`potential_new_cols` excludes the core schema, so `cols_to_join` never
contains a core column. -/
theorem pertJoinLoop_lookup_of_mem_core (coreCols : Schema) (geneList : List String)
    (exts : List (Except String Schema)) :
    ∀ (i : Nat) (m : CMap) (c : String), c ∈ coreCols →
      ((pertJoinLoop coreCols geneList i exts m).1).lookup c = m.lookup c := by
  induction exts with
  | nil => intro i m c _; rfl
  | cons x rest ih =>
    intro i m c hc
    match x with
    | .error s => exact ih (i + 1) m c hc
    | .ok e =>
      simp only [pertJoinLoop]
      by_cases hk : KEY_COLS ⊆ e
      · simp only [if_pos hk]
        have hpot : c ∉ e.filter (fun c => decide (c ∉ coreCols) && decide (c ∉ KEY_COLS)) := by
          intro hmemf
          rcases List.mem_filter.mp hmemf with ⟨_, hdec⟩
          simp only [Bool.and_eq_true, decide_eq_true_eq] at hdec
          exact hdec.1 hc
        by_cases hg : geneList = []
        · simp only [if_pos hg]
          by_cases hj : e.filter (fun c => decide (c ∉ coreCols) && decide (c ∉ KEY_COLS)) = []
          · simp only [if_pos hj]; exact ih (i + 1) m c hc
          · simp only [if_neg hj]
            rw [ih (i + 1) _ c hc, lookup_mapSet, if_neg hpot]
        · simp only [if_neg hg]
          set pot := e.filter (fun c => decide (c ∉ coreCols) && decide (c ∉ KEY_COLS)) with hpotdef
          have hjf : c ∉ pot.filter (fun c => decide (c ∈ geneList)) := by
            intro hmemf
            exact hpot (List.mem_of_mem_filter hmemf)
          by_cases hj : pot.filter (fun c => decide (c ∈ geneList)) = []
          · simp only [if_pos hj]; exact ih (i + 1) m c hc
          · simp only [if_neg hj]
            rw [ih (i + 1) _ c hc, lookup_mapSet, if_neg hjf]
      · simp only [if_neg hk]
        exact ih (i + 1) m c hc

/-- First-wins resolution of the GEX loop: a column not yet seen ends up
bound to the alias of the first readable fragment containing both
`Barcode` and the column, and keeps its old binding when there is none. -/
theorem gexJoinLoop_lookup_firstOwner (exts : List (Except String Schema)) :
    ∀ (i : Nat) (seen : Schema) (m : CMap) (c : String), c ∉ seen →
      ((gexJoinLoop i exts seen m).2.1).lookup c =
        (match gexFirstOwner c exts with
         | some k => some (aliasOf (i + k))
         | none => m.lookup c) := by
  induction exts with
  | nil => intro i seen m c _; rfl
  | cons x rest ih =>
    intro i seen m c hc
    match x with
    | .error s =>
      show ((gexJoinLoop (i + 1) rest seen m).2.1).lookup c = _
      rw [ih (i + 1) seen m c hc]
      cases hfo : gexFirstOwner c rest with
      | none => simp [gexFirstOwner, hfo]
      | some k =>
        have harith : i + 1 + k = i + (k + 1) := by omega
        simp [gexFirstOwner, hfo, harith]
    | .ok e =>
      by_cases hcond : ("Barcode" ∈ e ∧ c ∈ e)
      · have hcnew : c ∈ e.filter (fun c => decide (c ∉ seen)) :=
          List.mem_filter.mpr ⟨hcond.2, decide_eq_true hc⟩
        have hn : ¬(e.filter (fun c => decide (c ∉ seen)) = []) := by
          intro h
          rw [h] at hcnew
          exact absurd hcnew (List.not_mem_nil c)
        simp only [gexJoinLoop, if_pos hcond.1, if_neg hn]
        have hmem : c ∈ seen ++ e.filter (fun c => decide (c ∉ seen)) :=
          List.mem_append_right _ hcnew
        rw [gexJoinLoop_lookup_of_mem_seen rest (i + 1) _ _ c hmem,
          lookup_mapSet, if_pos hcnew]
        simp [gexFirstOwner, if_pos hcond]
      · by_cases hb : "Barcode" ∈ e
        · have hce : c ∉ e := fun h => hcond ⟨hb, h⟩
          have hcf : c ∉ e.filter (fun c => decide (c ∉ seen)) := fun h =>
            hce (List.mem_of_mem_filter h)
          by_cases hn : e.filter (fun c => decide (c ∉ seen)) = []
          · simp only [gexJoinLoop, if_pos hb, if_pos hn]
            rw [ih (i + 1) seen m c hc]
            cases hfo : gexFirstOwner c rest with
            | none => simp [gexFirstOwner, hfo, hcond]
            | some k =>
              have harith : i + 1 + k = i + (k + 1) := by omega
              simp [gexFirstOwner, hfo, hcond, harith]
          · simp only [gexJoinLoop, if_pos hb, if_neg hn]
            have hc' : c ∉ seen ++ e.filter (fun c => decide (c ∉ seen)) := by
              intro h
              rcases List.mem_append.mp h with h1 | h2
              · exact hc h1
              · exact hcf h2
            rw [ih (i + 1) _ (mapSet m _ (aliasOf i)) c hc']
            cases hfo : gexFirstOwner c rest with
            | none =>
              rw [lookup_mapSet, if_neg hcf]
              simp [gexFirstOwner, hfo, hcond]
            | some k =>
              have harith : i + 1 + k = i + (k + 1) := by omega
              simp [gexFirstOwner, hfo, hcond, harith]
        · simp only [gexJoinLoop, if_neg hb]
          rw [ih (i + 1) seen m c hc]
          have hcond2 : ¬("Barcode" ∈ e ∧ c ∈ e) := fun h => hb h.1
          cases hfo : gexFirstOwner c rest with
          | none => simp [gexFirstOwner, hfo, hcond2]
          | some k =>
            have harith : i + 1 + k = i + (k + 1) := by omega
            simp [gexFirstOwner, hfo, hcond2, harith]

/-- Last-wins resolution of the Pert loop: because `potential_new_cols`
subtracts only the core schema and the key columns, every joined fragment
containing a non-core column re-assigns its alias, so the column ends up
bound to the alias of the last fragment that registers it. -/
theorem pertJoinLoop_lookup_lastOwner (coreCols : Schema) (geneList : List String)
    (exts : List (Except String Schema)) :
    ∀ (i : Nat) (m : CMap) (c : String), c ∉ coreCols → c ∉ KEY_COLS →
      (geneList = [] ∨ c ∈ geneList) →
      ((pertJoinLoop coreCols geneList i exts m).1).lookup c =
        (match pertLastOwner c exts with
         | some k => some (aliasOf (i + k))
         | none => m.lookup c) := by
  induction exts with
  | nil => intro i m c _ _ _; rfl
  | cons x rest ih =>
    intro i m c hc1 hc2 hg
    match x with
    | .error s =>
      show ((pertJoinLoop coreCols geneList (i + 1) rest m).1).lookup c = _
      rw [ih (i + 1) m c hc1 hc2 hg]
      cases hfo : pertLastOwner c rest with
      | none => simp [pertLastOwner, hfo]
      | some k =>
        have harith : i + 1 + k = i + (k + 1) := by omega
        simp [pertLastOwner, hfo, harith]
    | .ok e =>
      have hpotmem : c ∈ e.filter (fun c => decide (c ∉ coreCols) && decide (c ∉ KEY_COLS)) ↔ c ∈ e := by
        constructor
        · exact List.mem_of_mem_filter
        · intro h
          refine List.mem_filter.mpr ⟨h, ?_⟩
          simp [hc1, hc2]
      have hjoinmem : ∀ gl0, (gl0 = geneList) →
          (c ∈ (if geneList = [] then
              e.filter (fun c => decide (c ∉ coreCols) && decide (c ∉ KEY_COLS))
            else (e.filter (fun c => decide (c ∉ coreCols) && decide (c ∉ KEY_COLS))).filter
              (fun c => decide (c ∈ geneList))) ↔ c ∈ e) := by
        intro gl0 _
        by_cases hgl : geneList = []
        · rw [if_pos hgl]; exact hpotmem
        · rw [if_neg hgl]
          have hcg : c ∈ geneList := hg.resolve_left hgl
          constructor
          · intro h
            exact hpotmem.mp (List.mem_of_mem_filter h)
          · intro h
            exact List.mem_filter.mpr ⟨hpotmem.mpr h, decide_eq_true hcg⟩
      by_cases hk : KEY_COLS ⊆ e
      · by_cases hce : c ∈ e
        · have hcj := (hjoinmem geneList rfl).mpr hce
          have hn : ¬((if geneList = [] then
              e.filter (fun c => decide (c ∉ coreCols) && decide (c ∉ KEY_COLS))
            else (e.filter (fun c => decide (c ∉ coreCols) && decide (c ∉ KEY_COLS))).filter
              (fun c => decide (c ∈ geneList))) = []) := by
            intro h
            rw [h] at hcj
            exact absurd hcj (List.not_mem_nil c)
          simp only [pertJoinLoop, if_pos hk, if_neg hn]
          rw [ih (i + 1) _ c hc1 hc2 hg]
          cases hfo : pertLastOwner c rest with
          | none =>
            rw [lookup_mapSet, if_pos hcj]
            simp [pertLastOwner, hfo, hk, hce]
          | some k =>
            have harith : i + 1 + k = i + (k + 1) := by omega
            simp [pertLastOwner, hfo, harith]
        · have hcj : c ∉ (if geneList = [] then
              e.filter (fun c => decide (c ∉ coreCols) && decide (c ∉ KEY_COLS))
            else (e.filter (fun c => decide (c ∉ coreCols) && decide (c ∉ KEY_COLS))).filter
              (fun c => decide (c ∈ geneList))) := fun h => hce ((hjoinmem geneList rfl).mp h)
          have hcond2 : ¬(KEY_COLS ⊆ e ∧ c ∈ e) := fun h => hce h.2
          by_cases hn : (if geneList = [] then
              e.filter (fun c => decide (c ∉ coreCols) && decide (c ∉ KEY_COLS))
            else (e.filter (fun c => decide (c ∉ coreCols) && decide (c ∉ KEY_COLS))).filter
              (fun c => decide (c ∈ geneList))) = []
          · simp only [pertJoinLoop, if_pos hk, if_pos hn]
            rw [ih (i + 1) m c hc1 hc2 hg]
            cases hfo : pertLastOwner c rest with
            | none => simp [pertLastOwner, hfo, hcond2]
            | some k =>
              have harith : i + 1 + k = i + (k + 1) := by omega
              simp [pertLastOwner, hfo, harith]
          · simp only [pertJoinLoop, if_pos hk, if_neg hn]
            rw [ih (i + 1) _ c hc1 hc2 hg]
            cases hfo : pertLastOwner c rest with
            | none =>
              rw [lookup_mapSet, if_neg hcj]
              simp [pertLastOwner, hfo, hcond2]
            | some k =>
              have harith : i + 1 + k = i + (k + 1) := by omega
              simp [pertLastOwner, hfo, harith]
      · simp only [pertJoinLoop, if_neg hk]
        rw [ih (i + 1) m c hc1 hc2 hg]
        have hcond2 : ¬(KEY_COLS ⊆ e ∧ c ∈ e) := fun h => hk h.1
        cases hfo : pertLastOwner c rest with
        | none => simp [pertLastOwner, hfo, hcond2]
        | some k =>
          have harith : i + 1 + k = i + (k + 1) := by omega
          simp [pertLastOwner, hfo, harith]

/-- Every index in the GEX join list points at a readable fragment that has
the `Barcode` key and contributes at least one column outside the seen
set (in particular outside the core schema the loop starts from). -/
theorem gexJoinLoop_mem_joins (exts : List (Except String Schema)) :
    ∀ (i : Nat) (seen : Schema) (m : CMap) (j : Nat),
      j ∈ (gexJoinLoop i exts seen m).2.2 →
      ∃ k e c, exts.get? k = some (.ok e) ∧ j = i + k ∧ "Barcode" ∈ e ∧
        c ∈ e ∧ c ∉ seen := by
  induction exts with
  | nil => intro i seen m j h; exact absurd h (List.not_mem_nil j)
  | cons x rest ih =>
    intro i seen m j h
    match x with
    | .error s =>
      rcases ih (i + 1) seen m j h with ⟨k, e, c, hk, hj, hb, hce, hcs⟩
      exact ⟨k + 1, e, c, hk, by omega, hb, hce, hcs⟩
    | .ok e =>
      by_cases hb : "Barcode" ∈ e
      · by_cases hn : e.filter (fun c => decide (c ∉ seen)) = []
        · simp only [gexJoinLoop, if_pos hb, if_pos hn] at h
          rcases ih (i + 1) seen m j h with ⟨k, e', c, hk, hj, hb', hce, hcs⟩
          exact ⟨k + 1, e', c, hk, by omega, hb', hce, hcs⟩
        · simp only [gexJoinLoop, if_pos hb, if_neg hn] at h
          rcases List.mem_cons.mp h with hj0 | hjr
          · rcases List.exists_mem_of_ne_nil _ hn with ⟨c, hcf⟩
            rcases List.mem_filter.mp hcf with ⟨hce, hdec⟩
            exact ⟨0, e, c, rfl, by omega, hb, hce, of_decide_eq_true hdec⟩
          · rcases ih (i + 1) _ _ j hjr with ⟨k, e', c, hk, hj, hb', hce, hcs⟩
            have hcs0 : c ∉ seen := fun hx => hcs (List.mem_append_left _ hx)
            exact ⟨k + 1, e', c, hk, by omega, hb', hce, hcs0⟩
      · simp only [gexJoinLoop, if_neg hb] at h
        rcases ih (i + 1) seen m j h with ⟨k, e', c, hk, hj, hb', hce, hcs⟩
        exact ⟨k + 1, e', c, hk, by omega, hb', hce, hcs⟩

/-- Every index in the Pert join list points at a readable fragment that
has all key columns and contributes a column outside core and keys which,
when a gene list was requested, is one of the requested genes. -/
theorem pertJoinLoop_mem_joins (coreCols : Schema) (geneList : List String)
    (exts : List (Except String Schema)) :
    ∀ (i : Nat) (m : CMap) (j : Nat),
      j ∈ (pertJoinLoop coreCols geneList i exts m).2 →
      ∃ k e c, exts.get? k = some (.ok e) ∧ j = i + k ∧ KEY_COLS ⊆ e ∧
        c ∈ e ∧ c ∉ coreCols ∧ c ∉ KEY_COLS ∧ (geneList = [] ∨ c ∈ geneList) := by
  induction exts with
  | nil => intro i m j h; exact absurd h (List.not_mem_nil j)
  | cons x rest ih =>
    intro i m j h
    match x with
    | .error s =>
      rcases ih (i + 1) m j h with ⟨k, e, c, hk, hj, hkey, hce, h1, h2, h3⟩
      exact ⟨k + 1, e, c, hk, by omega, hkey, hce, h1, h2, h3⟩
    | .ok e =>
      by_cases hk : KEY_COLS ⊆ e
      · by_cases hn : (if geneList = [] then
            e.filter (fun c => decide (c ∉ coreCols) && decide (c ∉ KEY_COLS))
          else (e.filter (fun c => decide (c ∉ coreCols) && decide (c ∉ KEY_COLS))).filter
            (fun c => decide (c ∈ geneList))) = []
        · simp only [pertJoinLoop, if_pos hk, if_pos hn] at h
          rcases ih (i + 1) m j h with ⟨k', e', c, hk', hj, hkey, hce, h1, h2, h3⟩
          exact ⟨k' + 1, e', c, hk', by omega, hkey, hce, h1, h2, h3⟩
        · simp only [pertJoinLoop, if_pos hk, if_neg hn] at h
          rcases List.mem_cons.mp h with hj0 | hjr
          · rcases List.exists_mem_of_ne_nil _ hn with ⟨c, hcj⟩
            by_cases hgl : geneList = []
            · rw [if_pos hgl] at hcj
              rcases List.mem_filter.mp hcj with ⟨hce, hdec⟩
              simp only [Bool.and_eq_true, decide_eq_true_eq] at hdec
              exact ⟨0, e, c, rfl, by omega, hk, hce, hdec.1, hdec.2, Or.inl hgl⟩
            · rw [if_neg hgl] at hcj
              rcases List.mem_filter.mp hcj with ⟨hpot, hdecg⟩
              rcases List.mem_filter.mp hpot with ⟨hce, hdec⟩
              simp only [Bool.and_eq_true, decide_eq_true_eq] at hdec
              exact ⟨0, e, c, rfl, by omega, hk, hce, hdec.1, hdec.2,
                Or.inr (of_decide_eq_true hdecg)⟩
          · rcases ih (i + 1) _ j hjr with ⟨k', e', c, hk', hj, hkey, hce, h1, h2, h3⟩
            exact ⟨k' + 1, e', c, hk', by omega, hkey, hce, h1, h2, h3⟩
      · simp only [pertJoinLoop, if_neg hk] at h
        rcases ih (i + 1) m j h with ⟨k', e', c, hk', hj, hkey, hce, h1, h2, h3⟩
        exact ⟨k' + 1, e', c, hk', by omega, hkey, hce, h1, h2, h3⟩

/-- A fragment collected as merged by the merger scan is one of the input
fragments, carries all join keys, and its new columns all land in the
accumulated new-column list. -/
theorem merger_scan_mem (coreCols : Schema) :
    ∀ (exts : List Frag) (f : Frag), f ∈ (merger_scan coreCols exts).1 →
      f ∈ exts ∧ JOIN_KEYS ⊆ f.schema ∧
        merger_new_cols coreCols f.schema ⊆ (merger_scan coreCols exts).2 := by
  intro exts
  induction exts with
  | nil => intro f h; exact absurd h (List.not_mem_nil f)
  | cons g rest ih =>
    intro f h
    by_cases hk : JOIN_KEYS ⊆ g.schema
    · simp only [merger_scan, if_pos hk] at h ⊢
      rcases List.mem_cons.mp h with hf | hf
      · subst hf
        exact ⟨List.mem_cons_self _ _, hk, List.subset_append_left _ _⟩
      · rcases ih f hf with ⟨h1, h2, h3⟩
        exact ⟨List.mem_cons_of_mem _ h1, h2, h3.trans (List.subset_append_right _ _)⟩
    · simp only [merger_scan, if_neg hk] at h ⊢
      rcases ih f h with ⟨h1, h2, h3⟩
      exact ⟨List.mem_cons_of_mem _ h1, h2, h3⟩

/-! ## Claim theorems -/

/-- C1: a column present in the core schema is always served from the core
alias, in both loaders, for every extension list (hence every enumeration
order) and every request; whenever it is selected, the select list pairs
it with the core alias. -/
theorem core_column_precedence (coreCols : Schema) (exts : List (Except String Schema))
    (genes : Option (List String)) (c : String) (hc : c ∈ coreCols) :
    ((load_filtered_gex_plan coreCols exts genes).colMap.lookup c = some "core" ∧
      (c ∈ (load_filtered_gex_plan coreCols exts genes).selCols →
        ("core", c) ∈ (load_filtered_gex_plan coreCols exts genes).selList)) ∧
    (∀ p : PertPlan, load_filtered_pert_plan coreCols exts genes = some p →
      p.colMap.lookup c = some "core" ∧
        (c ∈ p.selCols → ("core", c) ∈ p.selList)) := by
  constructor
  · simp only [load_filtered_gex_plan]
    have hm : ((gexJoinLoop 0 exts coreCols (mapSet [] coreCols "core")).2.1).lookup c
        = some "core" := by
      rw [gexJoinLoop_lookup_of_mem_seen exts 0 coreCols _ c hc, lookup_initMap, if_pos hc]
    refine ⟨hm, fun hsel => ?_⟩
    refine List.mem_filterMap.mpr ⟨c, hsel, ?_⟩
    rw [hm]
    rfl
  · intro p hp
    by_cases hkey : KEY_COLS ⊆ coreCols
    · simp only [load_filtered_pert_plan, if_pos hkey] at hp
      cases hp
      have hm : ((pertJoinLoop coreCols (genes.getD []) 0 exts
          (mapSet [] coreCols "core")).1).lookup c = some "core" := by
        rw [pertJoinLoop_lookup_of_mem_core coreCols _ exts 0 _ c hc,
          lookup_initMap, if_pos hc]
      refine ⟨hm, fun hsel => ?_⟩
      refine List.mem_filterMap.mpr ⟨c, hsel, ?_⟩
      rw [hm]
      rfl
    · simp only [load_filtered_pert_plan, if_neg hkey] at hp
      exact absurd hp (by simp)

/-- Witness for C1 at the concrete scenario of the spec. -/
theorem core_column_precedence_witness :
    "CD4" ∈ (["Subject", "CellType_Level3", "Status", "CD4"] : Schema) ∧
    (((load_filtered_gex_plan ["Subject", "CellType_Level3", "Status", "CD4"]
        [.ok ["Barcode", "Subject", "CellType_Level3", "Status", "CD4"]]
        (some ["CD4"])).colMap.lookup "CD4" = some "core" ∧
      ("CD4" ∈ (load_filtered_gex_plan ["Subject", "CellType_Level3", "Status", "CD4"]
        [.ok ["Barcode", "Subject", "CellType_Level3", "Status", "CD4"]]
        (some ["CD4"])).selCols →
        ("core", "CD4") ∈ (load_filtered_gex_plan ["Subject", "CellType_Level3", "Status", "CD4"]
        [.ok ["Barcode", "Subject", "CellType_Level3", "Status", "CD4"]]
        (some ["CD4"])).selList)) ∧
    (∀ p : PertPlan, load_filtered_pert_plan ["Subject", "CellType_Level3", "Status", "CD4"]
        [.ok ["Barcode", "Subject", "CellType_Level3", "Status", "CD4"]]
        (some ["CD4"]) = some p →
      p.colMap.lookup "CD4" = some "core" ∧
        ("CD4" ∈ p.selCols → ("core", "CD4") ∈ p.selList))) :=
  ⟨by decide, core_column_precedence _ _ _ _ (by decide)⟩

/-- C5 counterexample: two distinct core-read errors produce identical
return values, namely the degraded empty-DataFrame result, so the caller
does not receive the underlying error. -/
theorem core_error_propagation_cex :
    (load_filtered_gex_data (γ := List (String × String))
      (.error "Error reading schema for core file") [] none []).fst.df = none ∧
    load_filtered_gex_data (γ := List (String × String))
      (.error "Error reading schema for core file") [] none [] =
    load_filtered_gex_data (.error "AccessDenied") [] none [] :=
  ⟨rfl, rfl⟩

/-- C5 amended: a failure reading the core schema (and, for Pert, a failed
key-column check) is caught inside the loader, which returns the empty
DataFrame together with the color map; the underlying error is dropped
from the return value rather than propagated. -/
theorem core_error_degraded {γ : Type} (e : String) (exts : List (Except String Schema))
    (genes : Option (List String)) (color : γ) :
    load_filtered_gex_data (.error e) exts genes color = (⟨none, color⟩, []) ∧
    load_filtered_pert_data (.error e) exts genes color = (⟨none, color⟩, []) ∧
    (∀ coreCols : Schema, ¬ KEY_COLS ⊆ coreCols →
      load_filtered_pert_data (.ok coreCols) exts genes color = (⟨none, color⟩, [])) := by
  refine ⟨rfl, rfl, fun coreCols hkey => ?_⟩
  simp [load_filtered_pert_data, load_filtered_pert_plan, hkey]

/-- Witness for C5 amended. -/
theorem core_error_degraded_witness :
    ¬ KEY_COLS ⊆ ([] : Schema) ∧
    load_filtered_gex_data (γ := Bool) (.error "boom") [] none true = (⟨none, true⟩, []) ∧
    load_filtered_pert_data (γ := Bool) (.error "boom") [] none true = (⟨none, true⟩, []) ∧
    load_filtered_pert_data (γ := Bool) (.ok []) [] none true = (⟨none, true⟩, []) :=
  ⟨by decide, (core_error_degraded "boom" [] none true).1,
    (core_error_degraded "boom" [] none true).2.1,
    (core_error_degraded "boom" [] none true).2.2 [] (by decide)⟩

/-- C9 counterexample: the cache key functions discard the domain, so the
keys for the same dataset in two distinct domains coincide, and a value
stored on behalf of one domain is returned by a lookup on behalf of the
other: the caches are not keyed by the pair (dataset, domain). -/
theorem cache_key_domain_cex :
    options_cache_key "tcell" Domain.gex = options_cache_key "tcell" Domain.pert ∧
    gene_list_cache_key "tcell" Domain.gex = gene_list_cache_key "tcell" Domain.pert ∧
    refresh_flag_key "tcell" Domain.gex = refresh_flag_key "tcell" Domain.pert ∧
    Domain.gex ≠ Domain.pert ∧
    cache_lookup (cache_store ([] : List (String × Nat)) "tcell" Domain.gex 7)
      "tcell" Domain.pert = some 7 := by
  refine ⟨rfl, rfl, rfl, by decide, by decide⟩

/-- C9 amended: every mutable cache (dropdown-options cache, gene-list
cache, refresh-flag table) is keyed by the dataset prefix alone; the
domain is not part of the key, so lookups for the same dataset in
different domains always hit the same entry. -/
theorem cache_key_prefix_only (ds : String) (d1 d2 : Domain) :
    options_cache_key ds d1 = options_cache_key ds d2 ∧
    gene_list_cache_key ds d1 = gene_list_cache_key ds d2 ∧
    refresh_flag_key ds d1 = refresh_flag_key ds d2 ∧
    (∀ (β : Type) (cache : List (String × β)) (v : β),
      cache_lookup (cache_store cache ds d1 v) ds d2 = some v) := by
  refine ⟨rfl, rfl, rfl, fun β cache v => ?_⟩
  simp [cache_lookup, cache_store, options_cache_key, List.lookup_cons]

/-- C10: reading the flag of a prefix never written returns idle, and
reading immediately after a write returns the status just written. -/
theorem refresh_flag_semantics :
    (∀ (flags : FlagTable) (ds : String), flags.lookup ds = none →
      get_refresh_flag flags ds = "idle") ∧
    (∀ (flags : FlagTable) (ds s : String) (now : Nat),
      get_refresh_flag (set_refresh_flag flags ds s now) ds = s) := by
  constructor
  · intro flags ds h
    simp [get_refresh_flag, h]
  · intro flags ds s now
    simp [get_refresh_flag, set_refresh_flag, List.lookup_cons]

/-- C6: any run of the merger that fails before the atomic replace leaves
the core fragment and every extension fragment unchanged and leaves no
temporary file behind. -/
theorem compaction_failure_frame (core : Option Schema) (exts : List Frag)
    (fail : Option FailSite)
    (h : (merge_pert_files_duckdb core exts fail).failed = true) :
    (merge_pert_files_duckdb core exts fail).core = core ∧
    (merge_pert_files_duckdb core exts fail).exts = exts ∧
    (merge_pert_files_duckdb core exts fail).tmpRemains = false := by
  match core with
  | none => simp [merge_pert_files_duckdb] at h
  | some coreCols =>
    simp only [merge_pert_files_duckdb] at h ⊢
    split_ifs at h ⊢ <;> simp_all

/-- Witness for C6: a run failing at the COPY into the temporary file. -/
theorem compaction_failure_frame_witness :
    (merge_pert_files_duckdb (some ["Subject", "CellType_Level3", "Status"])
      [⟨"tcell_pert_x.parquet", ["Subject", "CellType_Level3", "Status", "G1"]⟩]
      (some .copyQuery)).failed = true ∧
    ((merge_pert_files_duckdb (some ["Subject", "CellType_Level3", "Status"])
      [⟨"tcell_pert_x.parquet", ["Subject", "CellType_Level3", "Status", "G1"]⟩]
      (some .copyQuery)).core = some ["Subject", "CellType_Level3", "Status"] ∧
    (merge_pert_files_duckdb (some ["Subject", "CellType_Level3", "Status"])
      [⟨"tcell_pert_x.parquet", ["Subject", "CellType_Level3", "Status", "G1"]⟩]
      (some .copyQuery)).exts =
        [⟨"tcell_pert_x.parquet", ["Subject", "CellType_Level3", "Status", "G1"]⟩] ∧
    (merge_pert_files_duckdb (some ["Subject", "CellType_Level3", "Status"])
      [⟨"tcell_pert_x.parquet", ["Subject", "CellType_Level3", "Status", "G1"]⟩]
      (some .copyQuery)).tmpRemains = false) :=
  ⟨by decide, compaction_failure_frame _ _ _ (by decide)⟩

/-- C7 counterexample: a run in which the single extension fragment has
the join keys but adds no new column deletes that fragment while
performing no replace of the core fragment at all. -/
theorem delete_without_replace_cex :
    (merge_pert_files_duckdb (some ["Subject", "CellType_Level3", "Status", "A"])
      [⟨"tcell_pert_a.parquet", ["Subject", "CellType_Level3", "Status", "A"]⟩]
      none).replaced = false ∧
    (merge_pert_files_duckdb (some ["Subject", "CellType_Level3", "Status", "A"])
      [⟨"tcell_pert_a.parquet", ["Subject", "CellType_Level3", "Status", "A"]⟩]
      none).exts = [] ∧
    (merge_pert_files_duckdb (some ["Subject", "CellType_Level3", "Status", "A"])
      [⟨"tcell_pert_a.parquet", ["Subject", "CellType_Level3", "Status", "A"]⟩]
      none).failed = false := by
  decide

/-- C7 amended: a fragment deleted by a merger run is deleted either after
a successful replace, or on the cleanup path, in which case it carries the
join keys and contributes no new column (content already in core). -/
theorem delete_only_merged (coreCols : Schema) (exts : List Frag)
    (fail : Option FailSite) (f : Frag) (hmem : f ∈ exts)
    (hdel : f ∉ (merge_pert_files_duckdb (some coreCols) exts fail).exts) :
    (merge_pert_files_duckdb (some coreCols) exts fail).replaced = true ∨
      (JOIN_KEYS ⊆ f.schema ∧ merger_new_cols coreCols f.schema = []) := by
  simp only [merge_pert_files_duckdb] at hdel ⊢
  split_ifs at hdel ⊢ with h1 h2 h3 h4 h5
  · exact absurd hmem (h1 ▸ hdel)
  · exact absurd hmem hdel
  · have hf1 : f ∈ (merger_scan coreCols exts).1 := by
      by_contra hnf
      exact hdel (List.mem_filter.mpr ⟨hmem, decide_eq_true hnf⟩)
    rcases merger_scan_mem coreCols exts f hf1 with ⟨_, hkeys, hsub⟩
    rw [h3] at hsub
    exact Or.inr ⟨hkeys, List.subset_nil.mp hsub⟩
  · exact absurd hmem hdel
  · exact absurd hmem hdel
  · exact Or.inl rfl

/-- Witness for C7 amended: the cleanup-path deletion. -/
theorem delete_only_merged_witness :
    (⟨"myeloid_pert_b.parquet", ["Subject", "CellType_Level3", "Status", "B"]⟩ : Frag) ∈
      [(⟨"myeloid_pert_b.parquet", ["Subject", "CellType_Level3", "Status", "B"]⟩ : Frag)] ∧
    (⟨"myeloid_pert_b.parquet", ["Subject", "CellType_Level3", "Status", "B"]⟩ : Frag) ∉
      (merge_pert_files_duckdb (some ["Subject", "CellType_Level3", "Status", "B"])
        [⟨"myeloid_pert_b.parquet", ["Subject", "CellType_Level3", "Status", "B"]⟩]
        none).exts ∧
    ((merge_pert_files_duckdb (some ["Subject", "CellType_Level3", "Status", "B"])
        [⟨"myeloid_pert_b.parquet", ["Subject", "CellType_Level3", "Status", "B"]⟩]
        none).replaced = true ∨
      (JOIN_KEYS ⊆ (["Subject", "CellType_Level3", "Status", "B"] : Schema) ∧
        merger_new_cols ["Subject", "CellType_Level3", "Status", "B"]
          ["Subject", "CellType_Level3", "Status", "B"] = [])) :=
  ⟨by decide, by decide,
    delete_only_merged ["Subject", "CellType_Level3", "Status", "B"]
      [⟨"myeloid_pert_b.parquet", ["Subject", "CellType_Level3", "Status", "B"]⟩] none
      ⟨"myeloid_pert_b.parquet", ["Subject", "CellType_Level3", "Status", "B"]⟩
      (by decide) (by decide)⟩

/-- C3: evaluation at the failing input.  With the bucket holding exactly
the core object and one extension object for dataset tcell, the S3
discovery of both loaders returns no extension files, because the listing
passes the glob star as a literal character in the S3 Prefix, while the
naming convention of the spec resolves the extension object; the local
GEX discovery does follow the convention; and the local core file name
used by the Pert loader carries the gex marker instead of pert. -/
theorem fragment_discovery_eval :
    s3_gex_ext_files "tcell"
      ["Joe/HSV_Dashboard_py/DataWarehouse/GEX/tcell_gex_core.parquet",
       "Joe/HSV_Dashboard_py/DataWarehouse/GEX/tcell_gex_CD8A.parquet"] = [] ∧
    spec_ext_fragments s3_gex_dir "tcell" "gex"
      ["Joe/HSV_Dashboard_py/DataWarehouse/GEX/tcell_gex_core.parquet",
       "Joe/HSV_Dashboard_py/DataWarehouse/GEX/tcell_gex_CD8A.parquet"] =
      ["Joe/HSV_Dashboard_py/DataWarehouse/GEX/tcell_gex_CD8A.parquet"] ∧
    s3_pert_ext_files "tcell"
      ["Joe/HSV_Dashboard_py/DataWarehouse/Pert/tcell_pert_core.parquet",
       "Joe/HSV_Dashboard_py/DataWarehouse/Pert/tcell_pert_CD8A.parquet"] = [] ∧
    spec_ext_fragments s3_pert_dir "tcell" "pert"
      ["Joe/HSV_Dashboard_py/DataWarehouse/Pert/tcell_pert_core.parquet",
       "Joe/HSV_Dashboard_py/DataWarehouse/Pert/tcell_pert_CD8A.parquet"] =
      ["Joe/HSV_Dashboard_py/DataWarehouse/Pert/tcell_pert_CD8A.parquet"] ∧
    pert_local_core_name "tcell" ≠ "tcell_pert_core.parquet" ∧
    gex_local_ext_files "tcell" ["tcell_gex_core.parquet", "tcell_gex_CD8A.parquet"] =
      spec_ext_fragments "" "tcell" "gex"
        ["tcell_gex_core.parquet", "tcell_gex_CD8A.parquet"] := by
  decide

/-- C2 counterexample: with core containing CD4 and an explicit request
for CD4 only, the GEX loader still joins the extension fragment
(Barcode, G1): index 0 is in the join list although the only column this
fragment owns, G1, is not in the final select set and no select-list
entry uses its alias. -/
theorem extension_pruning_cex :
    0 ∈ (load_filtered_gex_plan
        ["Barcode", "UMAP_1", "UMAP_2", "CellType_Level3", "Subject", "Status", "CD4"]
        [.ok ["Barcode", "G1"]] (some ["CD4"])).joins ∧
    (load_filtered_gex_plan
        ["Barcode", "UMAP_1", "UMAP_2", "CellType_Level3", "Subject", "Status", "CD4"]
        [.ok ["Barcode", "G1"]] (some ["CD4"])).colMap.lookup "G1" = some (aliasOf 0) ∧
    "G1" ∉ (load_filtered_gex_plan
        ["Barcode", "UMAP_1", "UMAP_2", "CellType_Level3", "Subject", "Status", "CD4"]
        [.ok ["Barcode", "G1"]] (some ["CD4"])).selCols ∧
    (∀ ac ∈ (load_filtered_gex_plan
        ["Barcode", "UMAP_1", "UMAP_2", "CellType_Level3", "Subject", "Status", "CD4"]
        [.ok ["Barcode", "G1"]] (some ["CD4"])).selList, ac.1 ≠ aliasOf 0) := by
  decide

/-- C2 amended: the Pert loader with an explicit nonempty gene list joins
an extension fragment only if it contributes a requested column outside
core and keys, which is then in the final select set; the GEX loader only
guarantees that a joined fragment is readable, has the Barcode key and
contributes some column outside the core schema, requested or not. -/
theorem extension_pruning_amended :
    (∀ (coreCols : Schema) (exts : List (Except String Schema)) (gl : List String)
        (j : Nat), gl ≠ [] →
      j ∈ ((load_filtered_pert_plan coreCols exts (some gl)).elim [] PertPlan.joins) →
      ∃ e c, exts.get? j = some (.ok e) ∧ KEY_COLS ⊆ e ∧ c ∈ e ∧
        c ∉ coreCols ∧ c ∉ KEY_COLS ∧ c ∈ gl ∧
        c ∈ ((load_filtered_pert_plan coreCols exts (some gl)).elim [] PertPlan.selCols)) ∧
    (∀ (coreCols : Schema) (exts : List (Except String Schema))
        (genes : Option (List String)) (j : Nat),
      j ∈ (load_filtered_gex_plan coreCols exts genes).joins →
      ∃ e c, exts.get? j = some (.ok e) ∧ "Barcode" ∈ e ∧ c ∈ e ∧ c ∉ coreCols) := by
  constructor
  · intro coreCols exts gl j hgl hj
    by_cases hkey : KEY_COLS ⊆ coreCols
    · simp only [load_filtered_pert_plan, if_pos hkey, Option.getD_some, Option.elim] at hj ⊢
      rcases pertJoinLoop_mem_joins coreCols gl exts 0 _ j hj with
        ⟨k, e, c, hk, hjk, hkeys, hce, h1, h2, h3⟩
      have hcg : c ∈ gl := h3.resolve_left hgl
      have hjeq : j = k := by omega
      subst hjeq
      refine ⟨e, c, by rw [hk], hkeys, hce, h1, h2, hcg, ?_⟩
      rw [if_neg hgl]
      exact List.mem_dedup.mpr (List.mem_append_right _ hcg)
    · simp only [load_filtered_pert_plan, if_neg hkey, Option.elim] at hj
      exact absurd hj (List.not_mem_nil j)
  · intro coreCols exts genes j hj
    simp only [load_filtered_gex_plan] at hj
    rcases gexJoinLoop_mem_joins exts 0 coreCols _ j hj with
      ⟨k, e, c, hk, hjk, hb, hce, hcs⟩
    have hjeq : j = k := by omega
    subst hjeq
    exact ⟨e, c, by rw [hk], hb, hce, hcs⟩

/-- Witness for C2 amended: one readable Pert extension fragment with the
keys and the single requested gene CD8A. -/
theorem extension_pruning_amended_witness :
    ((["CD8A"] : List String) ≠ [] ∧
     0 ∈ ((load_filtered_pert_plan KEY_COLS [.ok (KEY_COLS ++ ["CD8A"])]
        (some ["CD8A"])).elim [] PertPlan.joins)) ∧
    (∃ e c, ([.ok (KEY_COLS ++ ["CD8A"])] : List (Except String Schema)).get? 0 =
        some (.ok e) ∧ KEY_COLS ⊆ e ∧ c ∈ e ∧
      c ∉ KEY_COLS ∧ c ∉ KEY_COLS ∧ c ∈ ["CD8A"] ∧
      c ∈ ((load_filtered_pert_plan KEY_COLS [.ok (KEY_COLS ++ ["CD8A"])]
        (some ["CD8A"])).elim [] PertPlan.selCols)) :=
  ⟨⟨by decide, by decide⟩,
    extension_pruning_amended.1 KEY_COLS [.ok (KEY_COLS ++ ["CD8A"])] ["CD8A"] 0
      (by decide) (by decide)⟩

/-- C4 counterexample: a column G outside core held by two valid Pert
extension fragments resolves to the alias of the second (last) fragment,
not the first. -/
theorem duplicate_column_first_owner_cex :
    (load_filtered_pert_plan KEY_COLS
        [.ok (KEY_COLS ++ ["G"]), .ok (KEY_COLS ++ ["G"])] (some ["G"])).elim none
      (fun p => p.colMap.lookup "G") = some (aliasOf 1) ∧
    aliasOf 1 ≠ aliasOf 0 := by
  decide

/-- C4 amended: in the GEX loader a column outside core resolves to the
first readable fragment holding Barcode and the column; in the Pert
loader a requested column outside core and keys resolves to the last
readable fragment holding the keys and the column. -/
theorem duplicate_column_owner_amended :
    (∀ (coreCols : Schema) (exts : List (Except String Schema))
        (genes : Option (List String)) (c : String), c ∉ coreCols →
      (load_filtered_gex_plan coreCols exts genes).colMap.lookup c =
        (match gexFirstOwner c exts with
         | some k => some (aliasOf k)
         | none => none)) ∧
    (∀ (coreCols : Schema) (exts : List (Except String Schema)) (gl : List String)
        (c : String), KEY_COLS ⊆ coreCols → c ∉ coreCols → c ∉ KEY_COLS →
      (gl = [] ∨ c ∈ gl) →
      (load_filtered_pert_plan coreCols exts (some gl)).elim none
        (fun p => p.colMap.lookup c) =
        (match pertLastOwner c exts with
         | some k => some (aliasOf k)
         | none => none)) := by
  constructor
  · intro coreCols exts genes c hc
    simp only [load_filtered_gex_plan]
    rw [gexJoinLoop_lookup_firstOwner exts 0 coreCols _ c hc]
    cases hfo : gexFirstOwner c exts with
    | none => simp [lookup_initMap, hc]
    | some k => simp
  · intro coreCols exts gl c hkey hc1 hc2 hg
    simp only [load_filtered_pert_plan, if_pos hkey, Option.getD_some, Option.elim]
    rw [pertJoinLoop_lookup_lastOwner coreCols gl exts 0 _ c hc1 hc2 hg]
    cases hfo : pertLastOwner c exts with
    | none => simp [lookup_initMap, hc1]
    | some k => simp

/-- Witness for C4 amended: two GEX fragments sharing CD8A resolve to t0,
two Pert fragments sharing X resolve to t1. -/
theorem duplicate_column_owner_amended_witness :
    ("CD8A" ∉ (["Barcode"] : Schema) ∧
     (load_filtered_gex_plan ["Barcode"]
        [.ok ["Barcode", "CD8A"], .ok ["Barcode", "CD8A"]] none).colMap.lookup "CD8A" =
       (match gexFirstOwner "CD8A" [.ok ["Barcode", "CD8A"], .ok ["Barcode", "CD8A"]] with
        | some k => some (aliasOf k)
        | none => none)) ∧
    (KEY_COLS ⊆ KEY_COLS ∧ "X" ∉ KEY_COLS ∧ "X" ∉ KEY_COLS ∧
     ((["X"] : List String) = [] ∨ "X" ∈ (["X"] : List String)) ∧
     (load_filtered_pert_plan KEY_COLS
        [.ok (KEY_COLS ++ ["X"]), .ok (KEY_COLS ++ ["X"])] (some ["X"])).elim none
       (fun p => p.colMap.lookup "X") =
       (match pertLastOwner "X" [.ok (KEY_COLS ++ ["X"]), .ok (KEY_COLS ++ ["X"])] with
        | some k => some (aliasOf k)
        | none => none)) :=
  ⟨⟨by decide, duplicate_column_owner_amended.1 ["Barcode"]
      [.ok ["Barcode", "CD8A"], .ok ["Barcode", "CD8A"]] none "CD8A" (by decide)⟩,
   ⟨by decide, by decide, by decide, by decide,
    duplicate_column_owner_amended.2 KEY_COLS
      [.ok (KEY_COLS ++ ["X"]), .ok (KEY_COLS ++ ["X"])] ["X"] "X"
      (by decide) (by decide) (by decide) (by decide)⟩⟩

/-- C8 counterexample: requesting the unresolvable column FOXP3 alongside
CD4 returns a value identical to the one for requesting CD4 alone: the
query succeeds, but nothing about FOXP3 is reported back to the caller
(the warning is only printed). -/
theorem unresolved_column_report_cex :
    ((load_filtered_gex_data (γ := List (String × String))
      (.ok ["Barcode", "UMAP_1", "UMAP_2", "CellType_Level3", "Subject", "Status", "CD4"])
      [] (some ["CD4", "FOXP3"]) []).fst.df).isSome = true ∧
    (load_filtered_gex_data (γ := List (String × String))
      (.ok ["Barcode", "UMAP_1", "UMAP_2", "CellType_Level3", "Subject", "Status", "CD4"])
      [] (some ["CD4", "FOXP3"]) []).fst =
    (load_filtered_gex_data (γ := List (String × String))
      (.ok ["Barcode", "UMAP_1", "UMAP_2", "CellType_Level3", "Subject", "Status", "CD4"])
      [] (some ["CD4"]) []).fst := by
  decide

/-- C8 amended: a requested column owned by no fragment is omitted from
the select list while the query still succeeds and returns a table; the
column name appears in the printed warning set, which is not part of the
value returned to the caller. -/
theorem unresolved_column_amended {γ : Type} (coreCols : Schema)
    (exts : List (Except String Schema)) (gl : List String) (color : γ) (g : String)
    (hg : g ∈ gl)
    (hun : (load_filtered_gex_plan coreCols exts (some gl)).colMap.lookup g = none) :
    (∃ sel, (load_filtered_gex_data (.ok coreCols) exts (some gl) color).fst.df = some sel ∧
      ∀ a, (a, g) ∉ sel) ∧
    g ∈ (load_filtered_gex_data (.ok coreCols) exts (some gl) color).snd := by
  have hgl : gl ≠ [] := List.ne_nil_of_mem hg
  constructor
  · refine ⟨(load_filtered_gex_plan coreCols exts (some gl)).selList, rfl, fun a hmem => ?_⟩
    simp only [load_filtered_gex_plan] at hmem hun
    rcases List.mem_filterMap.mp hmem with ⟨c, _, hcl⟩
    rcases Option.map_eq_some'.mp hcl with ⟨a', ha', heq⟩
    have hc : c = g := congrArg Prod.snd heq
    rw [hc] at ha'
    rw [hun] at ha'
    exact Option.noConfusion ha'
  · show g ∈ (load_filtered_gex_plan coreCols exts (some gl)).missing
    simp only [load_filtered_gex_plan, Option.getD_some] at hun ⊢
    refine List.mem_filter.mpr ⟨?_, ?_⟩
    · rw [if_neg hgl]
      exact List.mem_dedup.mpr (List.mem_append_right _ hg)
    · rw [hun]
      simp [hg]

/-- Witness for C8 amended: requesting FOXP3 against a core holding only
Barcode and no extension fragments. -/
theorem unresolved_column_amended_witness :
    ("FOXP3" ∈ (["FOXP3"] : List String) ∧
     (load_filtered_gex_plan ["Barcode"] [] (some ["FOXP3"])).colMap.lookup "FOXP3" = none) ∧
    ((∃ sel, (load_filtered_gex_data (γ := Nat) (.ok ["Barcode"]) [] (some ["FOXP3"]) 0).fst.df =
        some sel ∧ ∀ a, (a, "FOXP3") ∉ sel) ∧
     "FOXP3" ∈ (load_filtered_gex_data (γ := Nat) (.ok ["Barcode"]) [] (some ["FOXP3"]) 0).snd) :=
  ⟨⟨by decide, by decide⟩,
    unresolved_column_amended ["Barcode"] [] ["FOXP3"] 0 "FOXP3" (by decide) (by decide)⟩

/-- Witness for C10. -/
theorem refresh_flag_semantics_witness :
    (([] : FlagTable).lookup "tcell" = none ∧ get_refresh_flag [] "tcell" = "idle") ∧
    get_refresh_flag (set_refresh_flag [] "tcell" "running" 5) "tcell" = "running" :=
  ⟨⟨rfl, refresh_flag_semantics.1 [] "tcell" rfl⟩,
    refresh_flag_semantics.2 [] "tcell" "running" 5⟩

end HSV
